import Mathlib

/-!
Verification development for the LangGraph → Vercel AI data-stream adapter
(`LangGraphAdapter` in the repository's utility module).

The adapter consumes an upstream async-generator of LangGraph stream events
(`{ event: string, data: any }`), filters message-tuple events by producer
node, wraps the resulting text deltas in the Vercel data-stream framing
(start_step / text / finish_step / finish_message), and exposes the result
as a pull-based `ReadableStream` inside an HTTP `Response`.

The embedding below models:
  * upstream events (`LangGraphStreamEvent`) with the optional fields the
    JavaScript code reads (`data[0]`, `data[1]`, `langgraph_node`, `content`),
    where a `none` slot stands for an absent / `undefined` JavaScript value;
  * the frames yielded by the generators as a tagged type `DataStreamPart`
    whose constructors mirror the `formatDataStreamPart` calls in the source;
  * `deltaMessagesGenerator` and `fullDataStreamGenerator` as functions from
    the finite upstream event list (plus an optional terminal upstream error)
    to the list of emitted frames and an optional terminal error, following
    ECMAScript semantics: a thrown error ends the generator at once, so frames
    already yielded stay emitted and the finish tail is skipped;
  * the suspended-generator positions of `fullDataStreamGenerator` as an
    explicit machine (`GenPos`, `genNext`, `genReturn`), so that the
    one-frame-per-pull `ReadableStream` bridge and its `cancel` path
    (`asyncGeneratorToReadableStream`) can be stated operationally; the
    `generator.return` cleanup follows ECMAScript `for await` semantics:
    closing an async generator that is suspended at a `yield` inside a
    `for await` loop closes the iterated inner iterator, while closing one
    suspended outside any loop runs no further body code;
  * `prepareResponseHeaders` and `toDataStreamResponse` over a small model of
    the WHATWG `Headers` object (case-insensitive names, set-replaces).
-/

/-- The message-like element `data[0]` of a `messages` event: the code only
reads its `content` field (`msg?.content`). `none` = the field is absent or
`undefined`; the emptiness of a present string is checked separately because
JavaScript treats the empty string as falsy. -/
structure MsgLike where
  content : Option String
deriving DecidableEq, Repr

/-- The metadata element `data[1]` of a `messages` event: the code only reads
its `langgraph_node` field. `none` = the field is absent. -/
structure EventMetadata where
  langgraph_node : Option String
deriving DecidableEq, Repr

/-- The `data` payload as far as the code indexes it: slots `data[0]` and
`data[1]`, each possibly absent (covers short arrays and non-array objects). -/
structure EventData where
  elem0 : Option MsgLike
  elem1 : Option EventMetadata
deriving DecidableEq, Repr

/-- One upstream event `{ event: string, data: any }`. `data = none` models a
`messages` event whose `data` value is `undefined`/`null`, on which the
subscript `message.data[1]` in the source throws a `TypeError`. -/
structure LangGraphStreamEvent where
  event : String
  data : Option EventData
deriving DecidableEq, Repr

/-- A frame of the Vercel AI data-stream protocol, one constructor per
`formatDataStreamPart` call shape appearing in the source. -/
inductive DataStreamPart where
  | start_step (messageId : String)
  | text (content : String)
  | finish_step (finishReason : String) (promptTokens completionTokens : Nat)
      (isContinued : Bool)
  | finish_message (finishReason : String) (promptTokens completionTokens : Nat)
deriving DecidableEq, Repr

namespace LangGraphAdapter

/-- One iteration of the `for await` body of `deltaMessagesGenerator`, for a
single upstream event: either it throws (`.error`), yields nothing
(`.ok none`), or yields one text frame (`.ok (some frame)`). Mirrors
```
if (message.event == 'messages' && message.data[1]) {
    const streaming_node = message.data[1]["langgraph_node"];
    const msg = message.data[0];
    if (streamingNodes.includes(streaming_node) && msg?.content) {
        const current = msg.content;
        yield formatDataStreamPart('text', current);
    }
}
```
with JavaScript truthiness: `message.data[1]` on absent `data` throws;
`includes` of an absent node tag is false against a string list; `msg?.content`
is falsy when `msg` is absent, `content` is absent, or `content` is `""`. The
`const streaming_node` / `const msg` locals are inlined. -/
def processEvent (streamingNodes : List String) (message : LangGraphStreamEvent) :
    Except String (Option DataStreamPart) :=
  if message.event = "messages" then
    match message.data with
    | none => .error "TypeError: Cannot read properties of undefined"
    | some d =>
      match d.elem1 with
      | none => .ok none
      | some meta =>
        if (match meta.langgraph_node with
            | none => false
            | some node => streamingNodes.contains node) then
          match d.elem0 with
          | none => .ok none
          | some m =>
            match m.content with
            | none => .ok none
            | some current =>
              if current = "" then .ok none
              else .ok (some (.text current))
        else .ok none
  else .ok none

/-- The run of `deltaMessagesGenerator` over the whole upstream: the list of
yielded text frames together with the terminal error, if any. `upstreamErr` is
the error the upstream async iterator throws after its last event (`none` =
the upstream completes normally); a throw from the loop body or from the
upstream ends the generator at that point, keeping the frames already
yielded. -/
def deltaMessagesRun (streamingNodes : List String) (upstreamErr : Option String) :
    List LangGraphStreamEvent → List DataStreamPart × Option String
  | [] => ([], upstreamErr)
  | message :: rest =>
    match processEvent streamingNodes message with
    | .error e => ([], some e)
    | .ok none => deltaMessagesRun streamingNodes upstreamErr rest
    | .ok (some frame) =>
      let (frames, err) := deltaMessagesRun streamingNodes upstreamErr rest
      (frame :: frames, err)

/-- The `finish_step` frame emitted after the delta loop:
`formatDataStreamPart('finish_step', { finishReason: 'stop',
usage: { promptTokens: 55, completionTokens: 20 }, isContinued: false })`. -/
def finishStepFrame : DataStreamPart := .finish_step "stop" 55 20 false

/-- The `finish_message` frame emitted last:
`formatDataStreamPart('finish_message', { finishReason: 'stop',
usage: { promptTokens: 55, completionTokens: 20 } })`. -/
def finishMessageFrame : DataStreamPart := .finish_message "stop" 55 20

/-- The run of `fullDataStreamGenerator`: yields `start_step {messageId}`,
forwards every frame of the delta generator, and on normal completion of the
loop yields the `finish_step` and `finish_message` frames; an error thrown
while iterating propagates and the tail is never reached. -/
def fullDataStreamGenerator (streamResponse : List LangGraphStreamEvent)
    (streamingNodes : List String) (upstreamErr : Option String)
    (messageId : String) : List DataStreamPart × Option String :=
  match deltaMessagesRun streamingNodes upstreamErr streamResponse with
  | (deltas, some e) => (.start_step messageId :: deltas, some e)
  | (deltas, none) =>
    (.start_step messageId :: (deltas ++ [finishStepFrame, finishMessageFrame]), none)

/-- Suspension positions of the `fullDataStreamGenerator` async generator, as
the ECMAScript runtime sees them between `next()` calls:
  * `created`: the generator object exists but no body code has run;
  * `suspStart`: suspended at `yield formatDataStreamPart('start_step', ...)`,
    before the `for await` loop has started (so the inner delta generator does
    not exist yet);
  * `suspDelta`: suspended at `yield delta` inside the `for await` loop, with
    the listed upstream events not yet consumed;
  * `suspStepFinish` / `suspMessageFinish`: suspended at the corresponding
    tail `yield`, the loop (and with it the upstream iteration) having
    already completed normally;
  * `completed`: the generator has returned, thrown, or been closed via
    `generator.return`; every further `next()` reports done. -/
inductive GenPos where
  | created (events : List LangGraphStreamEvent)
  | suspStart (events : List LangGraphStreamEvent)
  | suspDelta (events : List LangGraphStreamEvent)
  | suspStepFinish
  | suspMessageFinish
  | completed
deriving DecidableEq, Repr

/-- Outcome of one `generator.next()` call. -/
inductive NextRes where
  | yielded (frame : DataStreamPart)
  | finished
  | threw (e : String)
deriving DecidableEq, Repr

/-- One step of the `for await` loop of `deltaMessagesGenerator` starting from
the given pending upstream events: keep pulling upstream events until one
yields a text frame (`.ok (some (frame, rest))` with `rest` the events not yet
consumed), the loop body throws (`.error e`), or the upstream is exhausted
(`.ok none`). -/
def findDelta (streamingNodes : List String) :
    List LangGraphStreamEvent →
      Except String (Option (DataStreamPart × List LangGraphStreamEvent))
  | [] => .ok none
  | message :: rest =>
    match processEvent streamingNodes message with
    | .error e => .error e
    | .ok none => findDelta streamingNodes rest
    | .ok (some frame) => .ok (some (frame, rest))

/-- Resumption inside the `for await` loop of `fullDataStreamGenerator` with
the given pending upstream events: the loop either produces the next delta
frame (suspending at `yield delta` again), rethrows an error from the loop
body or from the upstream, or — when the upstream completes — exits, reaching
the `finish_step` yield. -/
def genNextLoop (streamingNodes : List String) (upstreamErr : Option String)
    (events : List LangGraphStreamEvent) : NextRes × GenPos :=
  match findDelta streamingNodes events with
  | .error e => (.threw e, .completed)
  | .ok (some (frame, rest)) => (.yielded frame, .suspDelta rest)
  | .ok none =>
    match upstreamErr with
    | some e => (.threw e, .completed)
    | none => (.yielded finishStepFrame, .suspStepFinish)

/-- One `generator.next()` call on `fullDataStreamGenerator`, resuming from a
suspension position: runs body code up to the next `yield`, `return`, or
throw. When the pending upstream events are exhausted, the upstream iterator
itself either completes (the loop exits and the `finish_step` yield is
reached) or throws `upstreamErr`, which propagates out of the loop. -/
def genNext (streamingNodes : List String) (upstreamErr : Option String)
    (messageId : String) : GenPos → NextRes × GenPos
  | .created events => (.yielded (.start_step messageId), .suspStart events)
  | .suspStart events => genNextLoop streamingNodes upstreamErr events
  | .suspDelta events => genNextLoop streamingNodes upstreamErr events
  | .suspStepFinish => (.yielded finishMessageFrame, .suspMessageFinish)
  | .suspMessageFinish => (.finished, .completed)
  | .completed => (.finished, .completed)

/-- One `generator.return()` call (the `cancel` path): the generator is closed
from its current suspension position. Per ECMAScript semantics the second
component records whether the upstream iterator's `return` method is invoked
during the close: that happens exactly when the generator is suspended at
`yield delta` inside the `for await` loop, because closing the outer generator
then closes the inner delta generator, which is itself suspended inside its
`for await` over the upstream and so closes the upstream iterator. In every
other position no loop over the upstream is active (not yet entered, or
already completed), so no upstream `return` call occurs. -/
def genReturn : GenPos → GenPos × Bool
  | .suspDelta _ => (.completed, true)
  | _ => (.completed, false)

/-- State of the `ReadableStream` built by `asyncGeneratorToReadableStream`:
still readable with the generator at a given position, closed
(`controller.close()` ran or the stream was cancelled), or errored (the `pull`
promise rejected because `generator.next()` threw). -/
inductive StreamStatus where
  | readable (pos : GenPos)
  | closed
  | errored (e : String)
deriving DecidableEq, Repr

/-- One downstream pull on the `ReadableStream`: mirrors
```
async pull(controller) {
    const { done, value } = await generator.next();
    if (done) { controller.close(); } else { controller.enqueue(value); }
}
```
returning the frame enqueued by this pull (if any) and the new stream state; a
rejection of `generator.next()` rejects the `pull` promise, which moves the
stream to the errored state with no frame enqueued. Pulls are never issued on
a closed or errored stream; such states are preserved untouched. -/
def pull (streamingNodes : List String) (upstreamErr : Option String)
    (messageId : String) : StreamStatus → Option DataStreamPart × StreamStatus
  | .readable pos =>
    match genNext streamingNodes upstreamErr messageId pos with
    | (.yielded frame, pos') => (some frame, .readable pos')
    | (.finished, _) => (none, .closed)
    | (.threw e, _) => (none, .errored e)
  | s => (none, s)

/-- One downstream cancellation: mirrors
```
async cancel(reason) {
    if (generator.return) { await generator.return(reason); }
}
```
(an async generator always has a `return` method, so the guard passes). The
stream is cancelled, hence no longer readable; the second component records
whether the upstream iterator received a `return` call during the close. -/
def cancel : StreamStatus → StreamStatus × Bool
  | .readable pos => (.closed, (genReturn pos).2)
  | s => (s, false)

/-- Iterate `n` downstream pulls, collecting the enqueued frames in order. -/
def pulls (streamingNodes : List String) (upstreamErr : Option String)
    (messageId : String) : Nat → StreamStatus → List DataStreamPart × StreamStatus
  | 0, s => ([], s)
  | n + 1, s =>
    let (frame?, s') := pull streamingNodes upstreamErr messageId s
    let (frames, s'') := pulls streamingNodes upstreamErr messageId n s'
    (frame?.toList ++ frames, s'')

/-- The initial stream state produced by
`asyncGeneratorToReadableStream(fullDataStreamGenerator(streamResponse, streamingNodes))`. -/
def initialStream (streamResponse : List LangGraphStreamEvent) : StreamStatus :=
  .readable (.created streamResponse)

/-- Case-insensitive key of a header name: the character codes of the name
with the ASCII upper-case letters mapped to lower case, as WHATWG header-name
comparison does. -/
def headerKey (s : String) : List Nat :=
  s.data.map fun c => if 65 ≤ c.toNat ∧ c.toNat ≤ 90 then c.toNat + 32 else c.toNat

/-- Whether an entry list contains an entry stored under the given
case-folded key. -/
def hasHeader (key : List Nat) : List (String × String) → Bool
  | [] => false
  | p :: rest => (headerKey p.1 == key) || hasHeader key rest

/-- The value of the first entry stored under the given case-folded key. -/
def findHeader (key : List Nat) : List (String × String) → Option String
  | [] => none
  | p :: rest => if headerKey p.1 == key then some p.2 else findHeader key rest

/-- Replace the value of every entry stored under the given case-folded
key. -/
def replaceHeader (key : List Nat) (v : String) :
    List (String × String) → List (String × String)
  | [] => []
  | p :: rest =>
    (if headerKey p.1 == key then (p.1, v) else p) :: replaceHeader key v rest

/-- Model of a WHATWG `Headers` object: an association list of name/value
pairs. Header names are case-insensitive, so lookup and replacement compare
the case-folded keys. -/
structure HeadersModel where
  entries : List (String × String)
deriving DecidableEq, Repr

namespace HeadersModel

/-- Membership test `headers.has(name)`: case-insensitive. -/
def has (h : HeadersModel) (nm : String) : Bool :=
  hasHeader (headerKey nm) h.entries

/-- Lookup `headers.get(name)`: first value stored under the
(case-insensitive) name. -/
def get (h : HeadersModel) (nm : String) : Option String :=
  findHeader (headerKey nm) h.entries

/-- Update `headers.set(name, value)`: replace the entry under the name when
one exists, or append one. -/
def set (h : HeadersModel) (nm v : String) : HeadersModel :=
  if h.has nm then ⟨replaceHeader (headerKey nm) v h.entries⟩
  else ⟨h.entries ++ [(nm, v)]⟩

/-- The empty header set (`new Headers({})`). -/
def empty : HeadersModel := ⟨[]⟩

end HeadersModel

/-- The helper `prepareResponseHeaders(headers, { contentType, dataStreamVersion })`:
builds a `Headers` from the given init (`headers ?? {}`), sets the
`Content-Type` default only when no such header is present, and sets
`X-Vercel-AI-Data-Stream` whenever `dataStreamVersion` is defined. -/
def prepareResponseHeaders (headers : Option HeadersModel)
    (contentType : String) (dataStreamVersion : Option String) : HeadersModel :=
  let responseHeaders := headers.getD HeadersModel.empty
  let responseHeaders :=
    if ¬ responseHeaders.has "Content-Type" then
      responseHeaders.set "Content-Type" contentType
    else responseHeaders
  match dataStreamVersion with
  | some v => responseHeaders.set "X-Vercel-AI-Data-Stream" v
  | none => responseHeaders

/-- Model of the `Response` object assembled by `toDataStreamResponse`: the
HTTP status line, the headers, and the body stream (frame-level; the
`TextEncoderStream` the source pipes through is a per-frame UTF-8 encoding and
does not change the frame sequence or its order). -/
structure ResponseModel where
  status : Nat
  statusText : String
  headers : HeadersModel
  body : StreamStatus
  /-- The inclusion set the body's generator closed over; together with
  `body` it determines what each downstream pull does. -/
  bodyStreamingNodes : List String
deriving DecidableEq, Repr

/-- The public entry point `toDataStreamResponse(streamResponse, streamingNodes)`: builds the full
generator, wraps it in a `ReadableStream`, and returns a 200/OK `Response`
with headers prepared from an empty init, content type
`text/plain; charset=utf-8`, and data-stream version `v1`. -/
def toDataStreamResponse (streamResponse : List LangGraphStreamEvent)
    (streamingNodes : List String) : ResponseModel :=
  { status := 200
    statusText := "OK"
    headers :=
      prepareResponseHeaders (some HeadersModel.empty)
        "text/plain; charset=utf-8" (some "v1")
    body := initialStream streamResponse
    bodyStreamingNodes := streamingNodes }

/-- Whether a frame is a `start_step` frame. -/
def isStart : DataStreamPart → Bool
  | .start_step _ => true
  | _ => false

/-- Whether a frame is a `finish_step` frame. -/
def isFinishStep : DataStreamPart → Bool
  | .finish_step _ _ _ _ => true
  | _ => false

/-- Whether a frame is a `finish_message` frame. -/
def isFinishMessage : DataStreamPart → Bool
  | .finish_message _ _ _ => true
  | _ => false

/-- The text content of a frame, when it is a text frame. -/
def textContent? : DataStreamPart → Option String
  | .text c => some c
  | _ => none

/-- The text content the filter extracts from one upstream event, when the
event is accepted. -/
def eventText? (streamingNodes : List String) (ev : LangGraphStreamEvent) :
    Option String :=
  match processEvent streamingNodes ev with
  | .ok (some (.text c)) => some c
  | _ => none

/-- Acceptance condition stated from the specification's words: the event's
kind denotes a message-content emission, its metadata element is present and
its producer tag is a member of the inclusion set, and its message element
carries non-empty text content. Compared against `processEvent`, which is
translated from the source. -/
def includedEventSpec (streamingNodes : List String)
    (ev : LangGraphStreamEvent) : Prop :=
  ev.event = "messages" ∧
  ∃ d, ev.data = some d ∧
    (∃ meta, d.elem1 = some meta ∧
      ∃ tag, meta.langgraph_node = some tag ∧ tag ∈ streamingNodes) ∧
    (∃ m, d.elem0 = some m ∧ ∃ c, m.content = some c ∧ c ≠ "")

instance (streamingNodes : List String) (ev : LangGraphStreamEvent) :
    Decidable (includedEventSpec streamingNodes ev) := by
  unfold includedEventSpec
  infer_instance

/-- Frames still to be yielded by the loop part of `fullDataStreamGenerator`
(delta frames, then the finish tail when the loop completes normally), with
the terminal error, if any. -/
def loopOutput (streamingNodes : List String) (upstreamErr : Option String)
    (events : List LangGraphStreamEvent) : List DataStreamPart × Option String :=
  match deltaMessagesRun streamingNodes upstreamErr events with
  | (deltas, some e) => (deltas, some e)
  | (deltas, none) => (deltas ++ [finishStepFrame, finishMessageFrame], none)

/-- Frames still to be yielded by the generator from a suspension position,
with the terminal error, if any. -/
def remainingOutput (streamingNodes : List String) (upstreamErr : Option String)
    (messageId : String) : GenPos → List DataStreamPart × Option String
  | .created events =>
    (.start_step messageId :: (loopOutput streamingNodes upstreamErr events).1,
      (loopOutput streamingNodes upstreamErr events).2)
  | .suspStart events => loopOutput streamingNodes upstreamErr events
  | .suspDelta events => loopOutput streamingNodes upstreamErr events
  | .suspStepFinish => ([finishMessageFrame], none)
  | .suspMessageFinish => ([], none)
  | .completed => ([], none)

/-- The terminal stream state reached after the generator is exhausted:
closed on normal completion, errored when the generator threw. -/
def finalStatus : Option String → StreamStatus
  | none => .closed
  | some e => .errored e

/-- The specification's example event: kind `messages`, content `"Hi"`,
producer tag `generate_message`. -/
def exampleMessageEvent : LangGraphStreamEvent :=
  { event := "messages"
    data := some { elem0 := some { content := some "Hi" }
                   elem1 := some { langgraph_node := some "generate_message" } } }

/-- A `messages` event whose `data` value is absent (`undefined`). -/
def exampleMissingDataEvent : LangGraphStreamEvent :=
  { event := "messages", data := none }

/-- A `messages` event from an included producer whose message element lacks
a `content` field. -/
def exampleMissingContentEvent : LangGraphStreamEvent :=
  { event := "messages"
    data := some { elem0 := some { content := none }
                   elem1 := some { langgraph_node := some "generate_message" } } }

/-! ### Helper lemmas relating the one-step generator machine to the
whole-run functions. -/

theorem deltaMessagesRun_cons (streamingNodes : List String)
    (upstreamErr : Option String) (ev : LangGraphStreamEvent)
    (rest : List LangGraphStreamEvent) :
    deltaMessagesRun streamingNodes upstreamErr (ev :: rest) =
      match processEvent streamingNodes ev with
      | .error e => ([], some e)
      | .ok none => deltaMessagesRun streamingNodes upstreamErr rest
      | .ok (some frame) =>
        (frame :: (deltaMessagesRun streamingNodes upstreamErr rest).1,
          (deltaMessagesRun streamingNodes upstreamErr rest).2) := by
  rfl

theorem findDelta_cons (streamingNodes : List String)
    (ev : LangGraphStreamEvent) (rest : List LangGraphStreamEvent) :
    findDelta streamingNodes (ev :: rest) =
      match processEvent streamingNodes ev with
      | .error e => .error e
      | .ok none => findDelta streamingNodes rest
      | .ok (some frame) => .ok (some (frame, rest)) := by
  rfl

theorem processEvent_ok_some {streamingNodes : List String}
    {ev : LangGraphStreamEvent} {f : DataStreamPart}
    (h : processEvent streamingNodes ev = .ok (some f)) :
    ∃ c, f = .text c ∧ c ≠ "" ∧ eventText? streamingNodes ev = some c := by
  unfold eventText?
  rw [h]
  by_cases hev : ev.event = "messages"
  case neg => simp [processEvent, hev] at h
  rcases hd : ev.data with _ | d
  · simp [processEvent, hev, hd] at h
  rcases h1 : d.elem1 with _ | meta
  · simp [processEvent, hev, hd, h1] at h
  rcases hn : meta.langgraph_node with _ | node
  · simp [processEvent, hev, hd, h1, hn] at h
  by_cases hin : node ∈ streamingNodes
  case neg => simp [processEvent, hev, hd, h1, hn, hin] at h
  rcases h0 : d.elem0 with _ | m
  · simp [processEvent, hev, hd, h1, hn, hin, h0] at h
  rcases hc : m.content with _ | c
  · simp [processEvent, hev, hd, h1, hn, hin, h0, hc] at h
  by_cases hce : c = ""
  · simp [processEvent, hev, hd, h1, hn, hin, h0, hc, hce] at h
  · obtain rfl : f = .text c := by
      simp [processEvent, hev, hd, h1, hn, hin, h0, hc, hce] at h
      exact h.symm
    exact ⟨c, rfl, hce, rfl⟩

theorem findDelta_error {streamingNodes : List String} {e : String}
    (upstreamErr : Option String) :
    ∀ {events : List LangGraphStreamEvent},
      findDelta streamingNodes events = .error e →
      deltaMessagesRun streamingNodes upstreamErr events = ([], some e)
  | [], h => by simp [findDelta] at h
  | ev :: rest, h => by
    rw [findDelta_cons] at h
    rw [deltaMessagesRun_cons]
    rcases hpe : processEvent streamingNodes ev with e' | g
    · simp only [hpe] at h ⊢
      simp at h
      simp [h]
    · rcases g with _ | g
      · simp only [hpe] at h ⊢
        exact findDelta_error upstreamErr h
      · simp [hpe] at h

theorem findDelta_done {streamingNodes : List String}
    (upstreamErr : Option String) :
    ∀ {events : List LangGraphStreamEvent},
      findDelta streamingNodes events = .ok none →
      deltaMessagesRun streamingNodes upstreamErr events = ([], upstreamErr)
  | [], _ => by simp [deltaMessagesRun]
  | ev :: rest, h => by
    rw [findDelta_cons] at h
    rw [deltaMessagesRun_cons]
    rcases hpe : processEvent streamingNodes ev with e' | g
    · simp [hpe] at h
    · rcases g with _ | g
      · simp only [hpe] at h ⊢
        exact findDelta_done upstreamErr h
      · simp [hpe] at h

theorem findDelta_yield {streamingNodes : List String} {f : DataStreamPart}
    {rest : List LangGraphStreamEvent} (upstreamErr : Option String) :
    ∀ {events : List LangGraphStreamEvent},
      findDelta streamingNodes events = .ok (some (f, rest)) →
      deltaMessagesRun streamingNodes upstreamErr events =
        (f :: (deltaMessagesRun streamingNodes upstreamErr rest).1,
          (deltaMessagesRun streamingNodes upstreamErr rest).2)
  | [], h => by simp [findDelta] at h
  | ev :: tl, h => by
    rw [findDelta_cons] at h
    rcases hpe : processEvent streamingNodes ev with e' | g
    · simp [hpe] at h
    · rcases g with _ | g
      · simp only [hpe] at h
        rw [deltaMessagesRun_cons]
        simp only [hpe]
        exact findDelta_yield upstreamErr h
      · simp only [hpe] at h
        simp at h
        obtain ⟨hf, hrest⟩ := h
        subst hf hrest
        rw [deltaMessagesRun_cons]
        simp [hpe]

theorem loopOutput_eq (streamingNodes : List String) (upstreamErr : Option String)
    (events : List LangGraphStreamEvent) :
    loopOutput streamingNodes upstreamErr events =
      ((deltaMessagesRun streamingNodes upstreamErr events).1 ++
        (match (deltaMessagesRun streamingNodes upstreamErr events).2 with
          | some _ => []
          | none => [finishStepFrame, finishMessageFrame]),
        (deltaMessagesRun streamingNodes upstreamErr events).2) := by
  unfold loopOutput
  rcases hdmr : deltaMessagesRun streamingNodes upstreamErr events with ⟨ds, _ | e⟩ <;>
    simp [hdmr]

theorem genNextLoop_step (streamingNodes : List String) (upstreamErr : Option String)
    (messageId : String) (events : List LangGraphStreamEvent) :
    ((loopOutput streamingNodes upstreamErr events).1 = [] →
      ∃ e, (loopOutput streamingNodes upstreamErr events).2 = some e ∧
        genNextLoop streamingNodes upstreamErr events = (.threw e, .completed)) ∧
    (∀ f fs, (loopOutput streamingNodes upstreamErr events).1 = f :: fs →
      ∃ pos', genNextLoop streamingNodes upstreamErr events = (.yielded f, pos') ∧
        remainingOutput streamingNodes upstreamErr messageId pos' =
          (fs, (loopOutput streamingNodes upstreamErr events).2)) := by
  rcases hfd : findDelta streamingNodes events with e | g
  · have hdmr := findDelta_error upstreamErr hfd
    constructor
    · intro _
      exact ⟨e, by simp [loopOutput, hdmr], by simp [genNextLoop, hfd]⟩
    · intro f fs hcons
      rw [loopOutput_eq, hdmr] at hcons
      simp at hcons
  · rcases g with _ | ⟨g, rest⟩
    · have hdmr := findDelta_done upstreamErr hfd
      rcases huerr : upstreamErr with _ | e
      · subst huerr
        constructor
        · intro hnil
          rw [loopOutput_eq, hdmr] at hnil
          simp at hnil
        · intro f fs hcons
          rw [loopOutput_eq, hdmr] at hcons
          simp at hcons
          obtain ⟨rfl, rfl⟩ := hcons
          refine ⟨.suspStepFinish, by simp [genNextLoop, hfd], ?_⟩
          rw [loopOutput_eq, hdmr]
          simp [remainingOutput]
      · subst huerr
        constructor
        · intro _
          exact ⟨e, by simp [loopOutput, hdmr], by simp [genNextLoop, hfd]⟩
        · intro f fs hcons
          rw [loopOutput_eq, hdmr] at hcons
          simp at hcons
    · have hdmr := findDelta_yield upstreamErr hfd
      constructor
      · intro hnil
        rw [loopOutput_eq, hdmr] at hnil
        simp at hnil
      · intro f fs hcons
        rw [loopOutput_eq, hdmr] at hcons
        rw [loopOutput_eq, hdmr]
        simp only [List.cons_append, List.cons.injEq] at hcons
        obtain ⟨rfl, rfl⟩ := hcons
        refine ⟨.suspDelta rest, by simp [genNextLoop, hfd], ?_⟩
        simp only [remainingOutput]
        rw [loopOutput_eq]

theorem remainingOutput_step (streamingNodes : List String)
    (upstreamErr : Option String) (messageId : String) (pos : GenPos) :
    ((remainingOutput streamingNodes upstreamErr messageId pos).1 = [] →
      pull streamingNodes upstreamErr messageId (.readable pos) =
        (none, finalStatus (remainingOutput streamingNodes upstreamErr messageId pos).2)) ∧
    (∀ f fs, (remainingOutput streamingNodes upstreamErr messageId pos).1 = f :: fs →
      ∃ pos', pull streamingNodes upstreamErr messageId (.readable pos) =
          (some f, .readable pos') ∧
        remainingOutput streamingNodes upstreamErr messageId pos' =
          (fs, (remainingOutput streamingNodes upstreamErr messageId pos).2)) := by
  cases pos with
  | created events =>
    constructor
    · intro hnil
      simp [remainingOutput] at hnil
    · intro f fs hcons
      simp only [remainingOutput, List.cons.injEq] at hcons
      obtain ⟨rfl, rfl⟩ := hcons
      exact ⟨.suspStart events, by simp [pull, genNext], by simp [remainingOutput]⟩
  | suspStart events =>
    obtain ⟨hempty, hstep⟩ :=
      genNextLoop_step streamingNodes upstreamErr messageId events
    constructor
    · intro hnil
      obtain ⟨e, he, hgl⟩ := hempty hnil
      simp [pull, genNext, hgl, remainingOutput, he, finalStatus]
    · intro f fs hcons
      obtain ⟨pos', hgl, hro⟩ := hstep f fs hcons
      exact ⟨pos', by simp [pull, genNext, hgl], hro⟩
  | suspDelta events =>
    obtain ⟨hempty, hstep⟩ :=
      genNextLoop_step streamingNodes upstreamErr messageId events
    constructor
    · intro hnil
      obtain ⟨e, he, hgl⟩ := hempty hnil
      simp [pull, genNext, hgl, remainingOutput, he, finalStatus]
    · intro f fs hcons
      obtain ⟨pos', hgl, hro⟩ := hstep f fs hcons
      exact ⟨pos', by simp [pull, genNext, hgl], hro⟩
  | suspStepFinish =>
    constructor
    · intro hnil
      simp [remainingOutput] at hnil
    · intro f fs hcons
      simp only [remainingOutput, List.cons.injEq] at hcons
      obtain ⟨rfl, hfs⟩ := hcons
      exact ⟨.suspMessageFinish, by simp [pull, genNext],
        by simp [remainingOutput, ← hfs]⟩
  | suspMessageFinish =>
    constructor
    · intro _
      simp [pull, genNext, remainingOutput, finalStatus]
    · intro f fs hcons
      simp [remainingOutput] at hcons
  | completed =>
    constructor
    · intro _
      simp [pull, genNext, remainingOutput, finalStatus]
    · intro f fs hcons
      simp [remainingOutput] at hcons

theorem pulls_closed (streamingNodes : List String) (upstreamErr : Option String)
    (messageId : String) :
    ∀ n, pulls streamingNodes upstreamErr messageId n .closed = ([], .closed)
  | 0 => rfl
  | n + 1 => by
    simp [pulls, pull, pulls_closed streamingNodes upstreamErr messageId n]

theorem pulls_errored (streamingNodes : List String) (upstreamErr : Option String)
    (messageId : String) (e : String) :
    ∀ n, pulls streamingNodes upstreamErr messageId n (.errored e) = ([], .errored e)
  | 0 => rfl
  | n + 1 => by
    simp [pulls, pull, pulls_errored streamingNodes upstreamErr messageId e n]

theorem pulls_final (streamingNodes : List String) (upstreamErr : Option String)
    (messageId : String) (er : Option String) (n : Nat) :
    pulls streamingNodes upstreamErr messageId n (finalStatus er) =
      ([], finalStatus er) := by
  cases er with
  | none => exact pulls_closed streamingNodes upstreamErr messageId n
  | some e => exact pulls_errored streamingNodes upstreamErr messageId e n

theorem pulls_readable (streamingNodes : List String) (upstreamErr : Option String)
    (messageId : String) :
    ∀ (n : Nat) (pos : GenPos),
      (pulls streamingNodes upstreamErr messageId n (.readable pos)).1 =
        ((remainingOutput streamingNodes upstreamErr messageId pos).1).take n ∧
      ((remainingOutput streamingNodes upstreamErr messageId pos).1.length < n →
        (pulls streamingNodes upstreamErr messageId n (.readable pos)).2 =
          finalStatus (remainingOutput streamingNodes upstreamErr messageId pos).2)
  | 0, pos => by simp [pulls]
  | n + 1, pos => by
    obtain ⟨hempty, hstep⟩ :=
      remainingOutput_step streamingNodes upstreamErr messageId pos
    rcases hro : (remainingOutput streamingNodes upstreamErr messageId pos).1 with
      _ | ⟨f, fs⟩
    · have hpull := hempty hro
      constructor
      · simp [pulls, hpull, pulls_final]
      · intro _
        simp [pulls, hpull, pulls_final]
    · obtain ⟨pos', hpull, hro'⟩ := hstep f fs hro
      obtain ⟨ih1, ih2⟩ := pulls_readable streamingNodes upstreamErr messageId n pos'
      have h1' : (remainingOutput streamingNodes upstreamErr messageId pos').1 = fs := by
        rw [hro']
      have h2' : (remainingOutput streamingNodes upstreamErr messageId pos').2 =
          (remainingOutput streamingNodes upstreamErr messageId pos).2 := by
        rw [hro']
      constructor
      · simp [pulls, hpull, ih1, h1', hro]
      · intro hlen
        simp only [List.length_cons, Nat.succ_lt_succ_iff] at hlen
        have hfin := ih2 (by rw [h1']; exact hlen)
        rw [h2'] at hfin
        simp [pulls, hpull, hfin]

theorem remainingOutput_created (streamingNodes : List String)
    (upstreamErr : Option String) (messageId : String)
    (events : List LangGraphStreamEvent) :
    remainingOutput streamingNodes upstreamErr messageId (.created events) =
      fullDataStreamGenerator events streamingNodes upstreamErr messageId := by
  rcases hdmr : deltaMessagesRun streamingNodes upstreamErr events with ⟨ds, _ | e⟩ <;>
    simp [remainingOutput, loopOutput, fullDataStreamGenerator, hdmr]

theorem deltaMessagesRun_err_free {streamingNodes : List String} :
    ∀ {events : List LangGraphStreamEvent},
      (deltaMessagesRun streamingNodes none events).2 = none →
      ∀ upstreamErr, deltaMessagesRun streamingNodes upstreamErr events =
        ((deltaMessagesRun streamingNodes none events).1, upstreamErr)
  | [], _, uerr => rfl
  | ev :: rest, h, uerr => by
    rw [deltaMessagesRun_cons] at h ⊢
    rw [deltaMessagesRun_cons]
    rcases hpe : processEvent streamingNodes ev with e | g
    · simp [hpe] at h
    · rcases g with _ | g
      · simp only [hpe] at h ⊢
        exact deltaMessagesRun_err_free h uerr
      · simp only [hpe] at h ⊢
        have := deltaMessagesRun_err_free (by simpa using h : (deltaMessagesRun streamingNodes none rest).2 = none) uerr
        simp [this]

theorem deltaMessagesRun_texts (streamingNodes : List String)
    (upstreamErr : Option String) :
    ∀ events : List LangGraphStreamEvent, ∃ ts : List String,
      (deltaMessagesRun streamingNodes upstreamErr events).1 =
        ts.map DataStreamPart.text
  | [] => ⟨[], rfl⟩
  | ev :: rest => by
    rw [deltaMessagesRun_cons]
    rcases hpe : processEvent streamingNodes ev with e | g
    · exact ⟨[], rfl⟩
    · rcases g with _ | g
      · exact deltaMessagesRun_texts streamingNodes upstreamErr rest
      · obtain ⟨c, rfl, -, -⟩ := processEvent_ok_some hpe
        obtain ⟨ts, hts⟩ := deltaMessagesRun_texts streamingNodes upstreamErr rest
        exact ⟨c :: ts, by simp [hts]⟩

theorem deltaMessagesRun_contents {streamingNodes : List String} :
    ∀ {events : List LangGraphStreamEvent},
      (deltaMessagesRun streamingNodes none events).2 = none →
      (deltaMessagesRun streamingNodes none events).1.filterMap textContent? =
        events.filterMap (eventText? streamingNodes)
  | [], _ => rfl
  | ev :: rest, h => by
    rw [deltaMessagesRun_cons] at h ⊢
    rcases hpe : processEvent streamingNodes ev with e | g
    · simp [hpe] at h
    · rcases g with _ | g
      · simp only [hpe] at h ⊢
        have hnone : eventText? streamingNodes ev = none := by
          simp [eventText?, hpe]
        simp only [List.filterMap_cons, hnone]
        exact deltaMessagesRun_contents h
      · simp only [hpe] at h ⊢
        obtain ⟨c, rfl, -, hev⟩ := processEvent_ok_some hpe
        have hc : textContent? (DataStreamPart.text c) = some c := rfl
        simp only [List.filterMap_cons, hev, hc]
        rw [deltaMessagesRun_contents (by simpa using h)]

theorem deltaMessagesRun_contents_prefix (streamingNodes : List String)
    (upstreamErr : Option String) :
    ∀ events : List LangGraphStreamEvent, ∃ k,
      (deltaMessagesRun streamingNodes upstreamErr events).1.filterMap textContent? =
        (events.filterMap (eventText? streamingNodes)).take k
  | [] => ⟨0, by simp [deltaMessagesRun]⟩
  | ev :: rest => by
    rw [deltaMessagesRun_cons]
    rcases hpe : processEvent streamingNodes ev with e | g
    · exact ⟨0, by simp⟩
    · rcases g with _ | g
      · have hnone : eventText? streamingNodes ev = none := by
          simp [eventText?, hpe]
        obtain ⟨k, hk⟩ := deltaMessagesRun_contents_prefix streamingNodes upstreamErr rest
        exact ⟨k, by simp [List.filterMap_cons, hnone, hk]⟩
      · obtain ⟨c, rfl, -, hev⟩ := processEvent_ok_some hpe
        obtain ⟨k, hk⟩ := deltaMessagesRun_contents_prefix streamingNodes upstreamErr rest
        refine ⟨k + 1, ?_⟩
        have hc : textContent? (DataStreamPart.text c) = some c := rfl
        simp [List.filterMap_cons, hev, hc, hk]

/-! ### Header-model lemmas. -/

theorem findHeader_replace_ne (key key' : List Nat) (v : String)
    (hne : (key == key') = false) :
    ∀ l : List (String × String),
      findHeader key' (replaceHeader key v l) = findHeader key' l
  | [] => rfl
  | p :: rest => by
    rcases hq : (headerKey p.1 == key') with _ | _
    · rcases hp : (headerKey p.1 == key) with _ | _ <;>
        simp [replaceHeader, findHeader, hp, hq,
          findHeader_replace_ne key key' v hne rest]
    · have hp : (headerKey p.1 == key) = false := by
        rcases hp2 : (headerKey p.1 == key) with _ | _
        · rfl
        · exfalso
          have e1 : headerKey p.1 = key := eq_of_beq hp2
          have e2 : headerKey p.1 = key' := eq_of_beq hq
          rw [← e1, ← e2] at hne
          simp at hne
      simp [replaceHeader, findHeader, hp, hq]

theorem findHeader_append_ne (key : List Nat) (nm v : String)
    (hne : (headerKey nm == key) = false) :
    ∀ l : List (String × String),
      findHeader key (l ++ [(nm, v)]) = findHeader key l
  | [] => by simp [findHeader, hne]
  | p :: rest => by
    rcases hq : (headerKey p.1 == key) with _ | _ <;>
      simp [findHeader, hq, findHeader_append_ne key nm v hne rest]

theorem findHeader_replace_self (key : List Nat) (v : String) :
    ∀ l : List (String × String), hasHeader key l = true →
      findHeader key (replaceHeader key v l) = some v
  | [], hmem => by simp [hasHeader] at hmem
  | p :: rest, hmem => by
    rcases hp : (headerKey p.1 == key) with _ | _
    · have hmem' : hasHeader key rest = true := by
        simpa [hasHeader, hp] using hmem
      simp [replaceHeader, findHeader, hp, findHeader_replace_self key v rest hmem']
    · simp [replaceHeader, findHeader, hp]

theorem findHeader_append_self (key : List Nat) (nm v : String)
    (hkey : headerKey nm = key) :
    ∀ l : List (String × String), hasHeader key l = false →
      findHeader key (l ++ [(nm, v)]) = some v
  | [], _ => by simp [findHeader, hkey]
  | p :: rest, hnone => by
    rcases hp : (headerKey p.1 == key) with _ | _
    · have hnone' : hasHeader key rest = false := by
        simpa [hasHeader, hp] using hnone
      simp [findHeader, hp, findHeader_append_self key nm v hkey rest hnone']
    · rw [hasHeader, hp] at hnone
      simp at hnone

theorem HeadersModel.get_set_ne (h : HeadersModel) (nm v nm' : String)
    (hne : (headerKey nm == headerKey nm') = false) :
    (h.set nm v).get nm' = h.get nm' := by
  unfold HeadersModel.set HeadersModel.get
  by_cases hhas : h.has nm
  · rw [if_pos hhas]
    exact findHeader_replace_ne (headerKey nm) (headerKey nm') v hne h.entries
  · rw [if_neg hhas]
    exact findHeader_append_ne (headerKey nm') nm v hne h.entries

theorem HeadersModel.get_set_self (h : HeadersModel) (nm v : String) :
    (h.set nm v).get nm = some v := by
  unfold HeadersModel.set HeadersModel.get
  by_cases hhas : h.has nm
  · rw [if_pos hhas]
    exact findHeader_replace_self (headerKey nm) v h.entries hhas
  · rw [if_neg hhas]
    exact findHeader_append_self (headerKey nm) nm v rfl h.entries
      (by simpa [HeadersModel.has] using hhas)

/-! ### Claim theorems. -/

/-- C2: an upstream event yields a Text frame if and only if its kind is the
message-emission kind `messages`, its metadata element is present with a
producer tag that belongs to the caller-supplied inclusion set, and its
message element carries non-empty text content; an event failing any of these
conditions never yields a Text frame. -/
theorem deltaMessages_filter_iff (streamingNodes : List String)
    (ev : LangGraphStreamEvent) :
    (∃ c, processEvent streamingNodes ev = Except.ok (some (DataStreamPart.text c))) ↔
      includedEventSpec streamingNodes ev := by
  constructor
  · rintro ⟨f, h⟩
    by_cases hev : ev.event = "messages"
    case neg => simp [processEvent, hev] at h
    rcases hd : ev.data with _ | d
    · simp [processEvent, hev, hd] at h
    rcases h1 : d.elem1 with _ | meta
    · simp [processEvent, hev, hd, h1] at h
    rcases hn : meta.langgraph_node with _ | node
    · simp [processEvent, hev, hd, h1, hn] at h
    by_cases hin : node ∈ streamingNodes
    case neg => simp [processEvent, hev, hd, h1, hn, hin] at h
    rcases h0 : d.elem0 with _ | m
    · simp [processEvent, hev, hd, h1, hn, hin, h0] at h
    rcases hc : m.content with _ | c
    · simp [processEvent, hev, hd, h1, hn, hin, h0, hc] at h
    by_cases hce : c = ""
    · simp [processEvent, hev, hd, h1, hn, hin, h0, hc, hce] at h
    · exact ⟨hev, d, hd, ⟨meta, h1, node, hn, hin⟩, m, h0, c, hc, hce⟩
  · rintro ⟨hev, d, hd, ⟨meta, h1, node, hn, hin⟩, m, h0, c, hc, hce⟩
    exact ⟨c, by simp [processEvent, hev, hd, h1, hn, hin, h0, hc, hce]⟩

/-- C9: the response assembler sets the default content-type header only when
the supplied header set has no `Content-Type` entry (case-insensitively),
sets the protocol-version header `X-Vercel-AI-Data-Stream` whenever a version
is supplied — and the public assembly path always supplies one — and the
assembled response always carries HTTP status `200 OK`; no other status is
produced. -/
theorem responseAssembler_headers_status :
    (∀ (h : HeadersModel) (ct : String) (v : Option String),
      h.has "Content-Type" = true →
        (prepareResponseHeaders (some h) ct v).get "Content-Type" =
          h.get "Content-Type") ∧
    (∀ (h : HeadersModel) (ct : String) (v : Option String),
      h.has "Content-Type" = false →
        (prepareResponseHeaders (some h) ct v).get "Content-Type" = some ct) ∧
    (∀ (h : HeadersModel) (ct v : String),
      (prepareResponseHeaders (some h) ct (some v)).get "X-Vercel-AI-Data-Stream" =
        some v) ∧
    (∀ (events : List LangGraphStreamEvent) (streamingNodes : List String),
      (toDataStreamResponse events streamingNodes).status = 200 ∧
      (toDataStreamResponse events streamingNodes).statusText = "OK") := by
  refine ⟨?_, ?_, ?_, fun _ _ => ⟨rfl, rfl⟩⟩
  · intro h ct v hhas
    rcases v with _ | v'
    · simp [prepareResponseHeaders, hhas]
    · simp only [prepareResponseHeaders, Option.getD_some, hhas, Bool.not_true,
        Bool.false_eq_true, if_false]
      exact HeadersModel.get_set_ne h _ _ _ (by decide)
  · intro h ct v hhas
    rcases v with _ | v'
    · simp only [prepareResponseHeaders, Option.getD_some, hhas, Bool.not_false,
        if_true]
      exact HeadersModel.get_set_self h _ _
    · simp only [prepareResponseHeaders, Option.getD_some, hhas, Bool.not_false,
        if_true]
      rw [HeadersModel.get_set_ne _ _ _ _ (by decide)]
      exact HeadersModel.get_set_self h _ _
  · intro h ct v
    simp only [prepareResponseHeaders, Option.getD_some]
    exact HeadersModel.get_set_self _ _ _

/-- Witness for `responseAssembler_headers_status` at a header set that
already carries a (lower-case) content type. -/
theorem responseAssembler_headers_status_witness :
    (HeadersModel.mk [("content-type", "application/json")]).has "Content-Type" =
      true ∧
    (prepareResponseHeaders (some (HeadersModel.mk
        [("content-type", "application/json")]))
        "text/plain; charset=utf-8" (some "v1")).get "Content-Type" =
      (HeadersModel.mk [("content-type", "application/json")]).get "Content-Type" := by
  refine ⟨by decide, ?_⟩
  exact responseAssembler_headers_status.1
    (HeadersModel.mk [("content-type", "application/json")])
    "text/plain; charset=utf-8" (some "v1") (by decide)

/-- C10: the public entry point prepares its headers from an empty header set,
so for every invocation the response carries `Content-Type` exactly
`text/plain; charset=utf-8` and `X-Vercel-AI-Data-Stream` exactly `v1`. -/
theorem toDataStreamResponse_fixed_headers
    (events : List LangGraphStreamEvent) (streamingNodes : List String) :
    (toDataStreamResponse events streamingNodes).headers =
      prepareResponseHeaders (some HeadersModel.empty)
        "text/plain; charset=utf-8" (some "v1") ∧
    (toDataStreamResponse events streamingNodes).headers.get "Content-Type" =
      some "text/plain; charset=utf-8" ∧
    (toDataStreamResponse events streamingNodes).headers.get "X-Vercel-AI-Data-Stream" =
      some "v1" := by
  refine ⟨rfl, ?_, ?_⟩
  · show (prepareResponseHeaders (some HeadersModel.empty)
        "text/plain; charset=utf-8" (some "v1")).get "Content-Type" =
      some "text/plain; charset=utf-8"
    decide
  · show (prepareResponseHeaders (some HeadersModel.empty)
        "text/plain; charset=utf-8" (some "v1")).get "X-Vercel-AI-Data-Stream" =
      some "v1"
    decide

theorem countP_texts_zero (p : DataStreamPart → Bool)
    (hp : ∀ c, p (.text c) = false) (ts : List String) :
    (ts.map DataStreamPart.text).countP p = 0 := by
  rw [List.countP_eq_zero]
  rintro f hf
  rw [List.mem_map] at hf
  obtain ⟨c, -, rfl⟩ := hf
  simp [hp]

/-- C1 as stated fails on the code: the input consisting of one `messages`
event with absent `data` terminates normally (no upstream error), yet draining
the stream delivers the Start frame alone — the filter's `TypeError` errors
the stream and the StepFinish/MessageFinish tail is never emitted. -/
theorem fullStream_envelope_counterexample :
    (pulls ["generate_message"] none "m1" 5
      (initialStream [exampleMissingDataEvent])).1 =
      [DataStreamPart.start_step "m1"] ∧
    (pulls ["generate_message"] none "m1" 5
      (initialStream [exampleMissingDataEvent])).2 =
      .errored "TypeError: Cannot read properties of undefined" :=
  ⟨rfl, rfl⟩

/-- C1 amended: for every input event sequence and every upstream outcome, the
first pull emits the Start frame carrying the per-session identifier before
any upstream event is consumed, and the output delivered by any number of
pulls begins with that Start frame and contains exactly one Start frame; when
the input terminates normally and no event makes the filter throw (no
`messages` event with absent `data`), draining the stream yields the Start
frame, zero or more Text frames, then exactly one StepFinish frame and exactly
one MessageFinish frame, in that order and nothing after; an empty input
yields exactly Start, StepFinish, MessageFinish. -/
theorem fullStream_envelope (events : List LangGraphStreamEvent)
    (streamingNodes : List String) (messageId : String) (n : Nat)
    (upstreamErr : Option String) :
    pull streamingNodes upstreamErr messageId (initialStream events) =
      (some (.start_step messageId), .readable (.suspStart events)) ∧
    (1 ≤ n →
      (pulls streamingNodes upstreamErr messageId n
        (initialStream events)).1.head? = some (.start_step messageId) ∧
      (pulls streamingNodes upstreamErr messageId n
        (initialStream events)).1.countP isStart = 1) ∧
    ((deltaMessagesRun streamingNodes none events).2 = none →
      (fullDataStreamGenerator events streamingNodes none messageId).1.length ≤ n →
      (∃ ts : List String,
        (pulls streamingNodes none messageId n (initialStream events)).1 =
          .start_step messageId ::
            (ts.map DataStreamPart.text ++ [finishStepFrame, finishMessageFrame])) ∧
      (pulls streamingNodes none messageId n (initialStream events)).1.countP
        isFinishStep = 1 ∧
      (pulls streamingNodes none messageId n (initialStream events)).1.countP
        isFinishMessage = 1 ∧
      (events = [] →
        (pulls streamingNodes none messageId n (initialStream events)).1 =
          [.start_step messageId, finishStepFrame, finishMessageFrame])) := by
  refine ⟨rfl, ?_, ?_⟩
  · intro hone
    obtain ⟨ts, hts⟩ := deltaMessagesRun_texts streamingNodes upstreamErr events
    rcases hdmr : deltaMessagesRun streamingNodes upstreamErr events with ⟨ds, er⟩
    have hds : ds = ts.map DataStreamPart.text := by simpa [hdmr] using hts
    have h1 : (pulls streamingNodes upstreamErr messageId n (initialStream events)).1 =
        ((remainingOutput streamingNodes upstreamErr messageId
          (.created events)).1).take n :=
      (pulls_readable streamingNodes upstreamErr messageId n (.created events)).1
    rw [remainingOutput_created] at h1
    obtain ⟨rest, hfull1, hrest⟩ :
        ∃ rest,
          (fullDataStreamGenerator events streamingNodes upstreamErr messageId).1 =
            .start_step messageId :: rest ∧ rest.countP isStart = 0 := by
      rcases er with _ | e
      · refine ⟨ds ++ [finishStepFrame, finishMessageFrame], ?_, ?_⟩
        · simp [fullDataStreamGenerator, hdmr]
        · rw [hds]
          simp [List.countP_append, List.countP_cons,
            countP_texts_zero isStart (fun c => rfl) ts,
            isStart, finishStepFrame, finishMessageFrame]
      · refine ⟨ds, ?_, ?_⟩
        · simp [fullDataStreamGenerator, hdmr]
        · rw [hds]
          exact countP_texts_zero isStart (fun c => rfl) ts
    rw [hfull1] at h1
    rcases n with _ | m
    · omega
    rw [List.take_succ_cons] at h1
    have htk : (rest.take m).countP isStart = 0 :=
      List.countP_eq_zero.mpr fun a ha =>
        List.countP_eq_zero.mp hrest a (List.take_subset _ _ ha)
    constructor
    · rw [h1]
      rfl
    · rw [h1]
      simp [List.countP_cons, htk, isStart]
  · intro hnorm hn
    obtain ⟨ts0, hts0⟩ := deltaMessagesRun_texts streamingNodes none events
    rcases hdmr : deltaMessagesRun streamingNodes none events with ⟨ds, er⟩
    have her : er = none := by simpa [hdmr] using hnorm
    subst her
    have hds : ds = ts0.map DataStreamPart.text := by simpa [hdmr] using hts0
    have hfull : fullDataStreamGenerator events streamingNodes none messageId =
        (.start_step messageId :: (ds ++ [finishStepFrame, finishMessageFrame]),
          none) := by
      simp [fullDataStreamGenerator, hdmr]
    have hn' : (DataStreamPart.start_step messageId ::
        (ds ++ [finishStepFrame, finishMessageFrame])).length ≤ n := by
      rw [hfull] at hn
      exact hn
    have h1 : (pulls streamingNodes none messageId n (initialStream events)).1 =
        ((remainingOutput streamingNodes none messageId (.created events)).1).take n :=
      (pulls_readable streamingNodes none messageId n (.created events)).1
    rw [remainingOutput_created, hfull] at h1
    have hdrain : (pulls streamingNodes none messageId n (initialStream events)).1 =
        .start_step messageId :: (ds ++ [finishStepFrame, finishMessageFrame]) := by
      rw [h1]
      exact List.take_of_length_le hn'
    refine ⟨⟨ts0, by rw [hdrain, hds]⟩, ?_, ?_, ?_⟩
    · rw [hdrain, hds]
      simp [List.countP_cons, List.countP_append,
        countP_texts_zero isFinishStep (fun c => rfl) ts0,
        isFinishStep, finishStepFrame, finishMessageFrame]
    · rw [hdrain, hds]
      simp [List.countP_cons, List.countP_append,
        countP_texts_zero isFinishMessage (fun c => rfl) ts0,
        isFinishMessage, finishStepFrame, finishMessageFrame]
    · intro hevents
      subst hevents
      have hds0 : ds = [] := by
        have : (([], none) : List DataStreamPart × Option String) = (ds, none) := by
          rw [← hdmr]
          rfl
        simpa using this.symm
      rw [hdrain, hds0]
      rfl

/-- Witness for `fullStream_envelope` at the specification's example event. -/
theorem fullStream_envelope_witness :
    ((deltaMessagesRun ["generate_message"] none [exampleMessageEvent]).2 = none) ∧
    ((fullDataStreamGenerator [exampleMessageEvent] ["generate_message"] none
        "m1").1.length ≤ 4) ∧
    (1 ≤ 4) ∧
    ((pulls ["generate_message"] none "m1" 4
      (initialStream [exampleMessageEvent])).1.countP isStart = 1) ∧
    (∃ ts : List String,
      (pulls ["generate_message"] none "m1" 4 (initialStream [exampleMessageEvent])).1 =
        DataStreamPart.start_step "m1" ::
          (ts.map DataStreamPart.text ++ [finishStepFrame, finishMessageFrame])) := by
  refine ⟨rfl, by decide, by decide, ?_, ?_⟩
  · exact ((fullStream_envelope [exampleMessageEvent] ["generate_message"] "m1" 4
      none).2.1 (by decide)).2
  · exact ((fullStream_envelope [exampleMessageEvent] ["generate_message"] "m1" 4
      none).2.2 rfl (by decide)).1

/-- C3: for every input event sequence and every upstream outcome, frames are
delivered to the consumer in exactly the order the sequencer produces them —
after n pulls the delivered frames are precisely the first n produced frames,
one per pull, with no reordering, merging or batching — and the contents of
the emitted Text frames are, in order, an initial run of the contents
extracted from the matching upstream events in arrival order; when the input
terminates normally with no filter throw they are exactly that extracted
sequence. -/
theorem fullStream_ordering (events : List LangGraphStreamEvent)
    (streamingNodes : List String) (messageId : String) :
    (∀ (upstreamErr : Option String) (n : Nat),
      (pulls streamingNodes upstreamErr messageId n (initialStream events)).1 =
        ((fullDataStreamGenerator events streamingNodes upstreamErr
          messageId).1).take n) ∧
    (∀ upstreamErr : Option String, ∃ k,
      ((fullDataStreamGenerator events streamingNodes upstreamErr
          messageId).1).filterMap textContent? =
        (events.filterMap (eventText? streamingNodes)).take k) ∧
    ((deltaMessagesRun streamingNodes none events).2 = none →
      ((fullDataStreamGenerator events streamingNodes none messageId).1).filterMap
        textContent? = events.filterMap (eventText? streamingNodes)) := by
  refine ⟨?_, ?_, ?_⟩
  · intro upstreamErr n
    have h1 := (pulls_readable streamingNodes upstreamErr messageId n
      (.created events)).1
    rw [remainingOutput_created] at h1
    exact h1
  · intro upstreamErr
    obtain ⟨k, hk⟩ :=
      deltaMessagesRun_contents_prefix streamingNodes upstreamErr events
    rcases hdmr : deltaMessagesRun streamingNodes upstreamErr events with ⟨ds, er⟩
    have hk' : ds.filterMap textContent? =
        (events.filterMap (eventText? streamingNodes)).take k := by
      simpa [hdmr] using hk
    refine ⟨k, ?_⟩
    rcases er with _ | e <;>
      simp [fullDataStreamGenerator, hdmr, List.filterMap_cons,
        List.filterMap_append, textContent?, finishStepFrame, finishMessageFrame, hk']
  · intro hnorm
    rcases hdmr : deltaMessagesRun streamingNodes none events with ⟨ds, er⟩
    have her : er = none := by simpa [hdmr] using hnorm
    subst her
    have hcont : ds.filterMap textContent? =
        events.filterMap (eventText? streamingNodes) := by
      have h := deltaMessagesRun_contents hnorm
      simpa [hdmr] using h
    simp [fullDataStreamGenerator, hdmr, List.filterMap_cons, List.filterMap_append,
      textContent?, finishStepFrame, finishMessageFrame, hcont]

/-- Witness for `fullStream_ordering` at the specification's example event. -/
theorem fullStream_ordering_witness :
    ((deltaMessagesRun ["generate_message"] none [exampleMessageEvent]).2 = none) ∧
    ((fullDataStreamGenerator [exampleMessageEvent] ["generate_message"] none
        "m2").1.filterMap textContent? =
      [exampleMessageEvent].filterMap (eventText? ["generate_message"])) :=
  ⟨rfl, (fullStream_ordering [exampleMessageEvent] ["generate_message"] "m2").2.2 rfl⟩

/-- C6: each downstream pull advances the producer generator by exactly one
step — a yielded frame is enqueued exactly as produced, and a completion
report closes the stream with no frame and no further work — and once the
MessageFinish frame has been delivered every subsequent pull yields
end-of-sequence with no frame, the stream being closed from the first such
pull on. -/
theorem adapter_pull_one_step (streamingNodes : List String)
    (upstreamErr : Option String) (messageId : String) :
    (∀ pos f pos',
      genNext streamingNodes upstreamErr messageId pos = (.yielded f, pos') →
      pull streamingNodes upstreamErr messageId (.readable pos) =
        (some f, .readable pos')) ∧
    (∀ pos pos',
      genNext streamingNodes upstreamErr messageId pos = (.finished, pos') →
      pull streamingNodes upstreamErr messageId (.readable pos) = (none, .closed)) ∧
    (∀ k, (pulls streamingNodes upstreamErr messageId k
      (.readable .suspMessageFinish)).1 = []) ∧
    (∀ k, (pulls streamingNodes upstreamErr messageId (k + 1)
      (.readable .suspMessageFinish)).2 = .closed) := by
  refine ⟨?_, ?_, ?_, ?_⟩
  · intro pos f pos' h
    simp [pull, h]
  · intro pos pos' h
    simp [pull, h]
  · intro k
    have h := (pulls_readable streamingNodes upstreamErr messageId k
      .suspMessageFinish).1
    simpa [remainingOutput] using h
  · intro k
    have h := (pulls_readable streamingNodes upstreamErr messageId (k + 1)
      .suspMessageFinish).2
    simpa [remainingOutput, finalStatus] using h (by simp [remainingOutput])

/-- Witness for `adapter_pull_one_step` at a concrete position. -/
theorem adapter_pull_one_step_witness :
    (genNext ["generate_message"] none "m3" .suspStepFinish =
      (.yielded finishMessageFrame, .suspMessageFinish)) ∧
    (pull ["generate_message"] none "m3" (.readable .suspStepFinish) =
      (some finishMessageFrame, .readable .suspMessageFinish)) := by
  refine ⟨rfl, ?_⟩
  exact (adapter_pull_one_step ["generate_message"] none "m3").1 .suspStepFinish
    finishMessageFrame .suspMessageFinish rfl

/-- C7: when the upstream throws after its events, the delivered frames are
exactly a prefix of Start followed by the Text frames already produced — whole
frames only — the StepFinish and MessageFinish tail frames are never
delivered, and once the error is reached the stream ends in the errored
state rather than hanging. -/
theorem upstream_failure_truncates (events : List LangGraphStreamEvent)
    (streamingNodes : List String) (messageId : String) (e : String)
    (hclean : (deltaMessagesRun streamingNodes none events).2 = none) :
    (∀ n, (pulls streamingNodes (some e) messageId n (initialStream events)).1 =
      (DataStreamPart.start_step messageId ::
        (deltaMessagesRun streamingNodes none events).1).take n) ∧
    (∀ n, finishStepFrame ∉
        (pulls streamingNodes (some e) messageId n (initialStream events)).1 ∧
      finishMessageFrame ∉
        (pulls streamingNodes (some e) messageId n (initialStream events)).1) ∧
    (∀ n, (deltaMessagesRun streamingNodes none events).1.length + 1 < n →
      (pulls streamingNodes (some e) messageId n (initialStream events)).2 =
        .errored e) := by
  have hrun := deltaMessagesRun_err_free hclean (some e)
  have hfull : fullDataStreamGenerator events streamingNodes (some e) messageId =
      (.start_step messageId :: (deltaMessagesRun streamingNodes none events).1,
        some e) := by
    simp [fullDataStreamGenerator, hrun]
  have hpre : ∀ n,
      (pulls streamingNodes (some e) messageId n (initialStream events)).1 =
      (DataStreamPart.start_step messageId ::
        (deltaMessagesRun streamingNodes none events).1).take n := by
    intro n
    have h1 := (pulls_readable streamingNodes (some e) messageId n (.created events)).1
    rw [remainingOutput_created, hfull] at h1
    exact h1
  obtain ⟨ts, hts⟩ := deltaMessagesRun_texts streamingNodes none events
  refine ⟨hpre, ?_, ?_⟩
  · intro n
    constructor <;>
    · rw [hpre n]
      intro hmem
      have hmem' := List.take_subset _ _ hmem
      rcases List.mem_cons.mp hmem' with hhd | htl
      · simp [finishStepFrame, finishMessageFrame] at hhd
      · rw [hts, List.mem_map] at htl
        obtain ⟨c, -, hc⟩ := htl
        simp [finishStepFrame, finishMessageFrame] at hc
  · intro n hn
    have h2 := (pulls_readable streamingNodes (some e) messageId n (.created events)).2
    rw [remainingOutput_created, hfull] at h2
    have h3 := h2 (by simpa using hn)
    simpa [finalStatus] using h3

/-- Witness for `upstream_failure_truncates` at the specification's example
event with a failing upstream. -/
theorem upstream_failure_truncates_witness :
    ((deltaMessagesRun ["generate_message"] none [exampleMessageEvent]).2 = none) ∧
    ((deltaMessagesRun ["generate_message"] none [exampleMessageEvent]).1.length + 1
      < 4) ∧
    ((pulls ["generate_message"] (some "boom") "m4" 4
      (initialStream [exampleMessageEvent])).2 = .errored "boom") := by
  refine ⟨rfl, by decide, ?_⟩
  exact (upstream_failure_truncates [exampleMessageEvent] ["generate_message"] "m4"
    "boom" rfl).2.2 4 (by decide)

/-- C8: whenever the input terminates normally the produced frame sequence
ends with a StepFinish frame carrying reason `stop`, usage
`promptTokens 55, completionTokens 20`, and `isContinued = false`, followed by
a MessageFinish frame carrying reason `stop` and the identical usage counts,
for every input — the usage is a fixed placeholder independent of the events
and of any upstream accounting. -/
theorem finish_tail_constant (events : List LangGraphStreamEvent)
    (streamingNodes : List String) (messageId : String)
    (hnorm : (deltaMessagesRun streamingNodes none events).2 = none) :
    ∃ pre, (fullDataStreamGenerator events streamingNodes none messageId).1 =
      pre ++ [DataStreamPart.finish_step "stop" 55 20 false,
        DataStreamPart.finish_message "stop" 55 20] := by
  rcases hdmr : deltaMessagesRun streamingNodes none events with ⟨ds, er⟩
  have her : er = none := by simpa [hdmr] using hnorm
  subst her
  exact ⟨.start_step messageId :: ds, by
    simp [fullDataStreamGenerator, hdmr, finishStepFrame, finishMessageFrame]⟩

/-- Witness for `finish_tail_constant` at the empty upstream. -/
theorem finish_tail_constant_witness :
    ((deltaMessagesRun [] none ([] : List LangGraphStreamEvent)).2 = none) ∧
    (∃ pre, (fullDataStreamGenerator [] [] none "m5").1 =
      pre ++ [DataStreamPart.finish_step "stop" 55 20 false,
        DataStreamPart.finish_message "stop" 55 20]) :=
  ⟨rfl, finish_tail_constant [] [] "m5" rfl⟩

/-- C4 as stated fails on the code: a `messages` event whose `data` value is
itself absent makes the subscript `message.data[1]` throw a `TypeError`, which
ends the generator and errors the stream instead of being silently dropped. -/
theorem missing_data_event_throws :
    processEvent ["generate_message"] exampleMissingDataEvent =
      Except.error "TypeError: Cannot read properties of undefined" ∧
    (pulls ["generate_message"] none "m1" 2
        (initialStream [exampleMissingDataEvent])).2 =
      .errored "TypeError: Cannot read properties of undefined" :=
  ⟨rfl, rfl⟩

/-- C4 amended: an event that is not of kind `messages`, or whose shape is
malformed with its `data` element present (missing metadata element, missing
producer tag, tag outside the inclusion set, missing message element, missing
or empty content), is silently dropped — the filter returns no frame and no
error, and the run over the remaining events is unchanged; only a `messages`
event whose `data` element is itself absent throws. -/
theorem malformed_event_dropped (streamingNodes : List String)
    (ev : LangGraphStreamEvent)
    (hdata : ev.event = "messages" → ev.data.isSome)
    (hfail : ¬ includedEventSpec streamingNodes ev) :
    processEvent streamingNodes ev = Except.ok none ∧
    ∀ (upstreamErr : Option String) (rest : List LangGraphStreamEvent),
      deltaMessagesRun streamingNodes upstreamErr (ev :: rest) =
        deltaMessagesRun streamingNodes upstreamErr rest := by
  have hok : processEvent streamingNodes ev = Except.ok none := by
    by_cases hev : ev.event = "messages"
    case neg => simp [processEvent, hev]
    rcases hd : ev.data with _ | d
    · exact absurd (hdata hev) (by simp [hd])
    rcases h1 : d.elem1 with _ | meta
    · simp [processEvent, hev, hd, h1]
    rcases hn : meta.langgraph_node with _ | node
    · simp [processEvent, hev, hd, h1, hn]
    by_cases hin : node ∈ streamingNodes
    case neg => simp [processEvent, hev, hd, h1, hn, hin]
    rcases h0 : d.elem0 with _ | m
    · simp [processEvent, hev, hd, h1, hn, hin, h0]
    rcases hc : m.content with _ | c
    · simp [processEvent, hev, hd, h1, hn, hin, h0, hc]
    by_cases hce : c = ""
    · simp [processEvent, hev, hd, h1, hn, hin, h0, hc, hce]
    · exact absurd ⟨hev, d, hd, ⟨meta, h1, node, hn, hin⟩, m, h0, c, hc, hce⟩ hfail
  refine ⟨hok, fun upstreamErr rest => ?_⟩
  rw [deltaMessagesRun_cons]
  simp [hok]

/-- Witness for `malformed_event_dropped` at an event with missing content. -/
theorem malformed_event_dropped_witness :
    (exampleMissingContentEvent.event = "messages" →
      exampleMissingContentEvent.data.isSome) ∧
    (¬ includedEventSpec ["generate_message"] exampleMissingContentEvent) ∧
    processEvent ["generate_message"] exampleMissingContentEvent = Except.ok none := by
  refine ⟨fun _ => rfl, by decide, ?_⟩
  exact (malformed_event_dropped ["generate_message"] exampleMissingContentEvent
    (fun _ => rfl) (by decide)).1

/-- C5 as stated fails on the code: when the consumer cancels right after
receiving only the Start frame, the producer generator is still suspended at
the `start_step` yield, before its `for await` loop has begun, so closing it
runs no loop cleanup and the upstream iterator's `return` is never invoked —
the upstream receives no termination signal, although the stream does close. -/
theorem cancel_after_start_no_upstream_signal :
    (pulls ["generate_message"] none "m1" 1
      (initialStream [exampleMessageEvent])).1 = [DataStreamPart.start_step "m1"] ∧
    (cancel (pulls ["generate_message"] none "m1" 1
      (initialStream [exampleMessageEvent])).2).1 = .closed ∧
    (cancel (pulls ["generate_message"] none "m1" 1
      (initialStream [exampleMessageEvent])).2).2 = false :=
  ⟨rfl, rfl, rfl⟩

/-- C5 amended: cancelling always closes the stream, sends the termination
signal into the producer generator (its `return` is invoked, leaving it
completed), and no frame is ever delivered afterwards; the signal propagates
to the upstream event source exactly when the producer was suspended at a
delta yield, i.e. when the last delivered frame was a Text frame — cancelling
when only the Start frame has been delivered, or during the finish tail, does
not invoke the upstream iterator's `return`, no upstream iteration being
active then. -/
theorem cancel_closes_and_signals (streamingNodes : List String)
    (upstreamErr : Option String) (messageId : String) :
    (∀ s k, (pulls streamingNodes upstreamErr messageId k (cancel s).1).1 = []) ∧
    (∀ pos, (cancel (.readable pos)).1 = .closed) ∧
    (∀ pos, (genReturn pos).1 = .completed) ∧
    (∀ pos, ((cancel (.readable pos)).2 = true ↔
      ∃ evs, pos = GenPos.suspDelta evs)) := by
  refine ⟨?_, fun pos => rfl, ?_, ?_⟩
  · intro s k
    rcases s with pos | _ | e
    · simp [cancel, pulls_closed]
    · simp [cancel, pulls_closed]
    · simp [cancel, pulls_errored]
  · intro pos
    cases pos <;> rfl
  · intro pos
    cases pos <;> simp [cancel, genReturn]

end LangGraphAdapter
